import Mathlib

/-!
Shallow embedding of the core of the `rusted-tools` MCP proxy gateway
(Rust sources under `src/`): the endpoint registry and lifecycle manager
(`src/endpoint/registry.rs`, `src/endpoint/manager.rs`), the tool filter
(`src/routing/tool_filter.rs`), the session-actor runtime handle
(`src/mcp/runtime.rs`), the MCP client handshake and pagination
(`src/mcp/client.rs`), the local endpoint variant (`src/endpoint/local.rs`),
and the error taxonomy (`src/error.rs`).

Pure functions are translated directly; stateful Rust methods become
explicit state-passing functions; the outcomes of external effects
(subprocess spawn, handshake, backend RPC calls) are passed in as
parameters.  Status writes performed against the registry are additionally
collected in an explicit write trace so that status-transition claims can
be stated.
-/

namespace RustedTools

/-- `EndpointStatus` from `src/endpoint/registry.rs`. -/
inductive EndpointStatus
  | Starting
  | Running
  | Stopping
  | Stopped
  | Failed
  deriving DecidableEq, Repr

/-- `EndpointType` from `src/endpoint/registry.rs`. -/
inductive EndpointType
  | Local
  | Remote
  deriving DecidableEq, Repr

/-- `EndpointInfo` from `src/endpoint/registry.rs`. -/
structure EndpointInfo where
  name : String
  path : String
  endpoint_type : EndpointType
  status : EndpointStatus
  deriving DecidableEq, Repr

/-- `ProxyError` from `src/error.rs` (the variants relevant to the core;
`Io`/`Json` carry foreign payloads and are represented by their message). -/
inductive ProxyError
  | Config (msg : String)
  | ServerNotFound (name : String)
  | ServerAlreadyExists (name : String)
  | ServerNotRunning (name : String)
  | ServerAlreadyRunning (name : String)
  | ServerRuntimeFailed (msg : String)
  | ServerStartFailed (msg : String)
  | McpProtocol (msg : String)
  | InvalidRequest (msg : String)
  | ToolNotAllowed (msg : String)
  | Internal (msg : String)
  deriving DecidableEq, Repr

/-- The enum discriminant ("error type") of a `ProxyError`, used to state
whether two errors are distinguishable by type rather than by message. -/
inductive ProxyErrorKind
  | Config | ServerNotFound | ServerAlreadyExists | ServerNotRunning
  | ServerAlreadyRunning | ServerRuntimeFailed | ServerStartFailed
  | McpProtocol | InvalidRequest | ToolNotAllowed | Internal
  deriving DecidableEq, Repr

/-- Map an error to its discriminant. -/
def ProxyError.kind : ProxyError → ProxyErrorKind
  | .Config _ => .Config
  | .ServerNotFound _ => .ServerNotFound
  | .ServerAlreadyExists _ => .ServerAlreadyExists
  | .ServerNotRunning _ => .ServerNotRunning
  | .ServerAlreadyRunning _ => .ServerAlreadyRunning
  | .ServerRuntimeFailed _ => .ServerRuntimeFailed
  | .ServerStartFailed _ => .ServerStartFailed
  | .McpProtocol _ => .McpProtocol
  | .InvalidRequest _ => .InvalidRequest
  | .ToolNotAllowed _ => .ToolNotAllowed
  | .Internal _ => .Internal

/-- The discriminant of the error of a fallible result, if it is an
error. -/
def errorKind? {α : Type} : Except ProxyError α → Option ProxyErrorKind
  | .error e => some e.kind
  | .ok _ => none

/-- `ProxyError::server_runtime_failed` formats `"{server}: {details}"`. -/
def ProxyError.server_runtime_failed (server_name details : String) : ProxyError :=
  .ServerRuntimeFailed (server_name ++ ": " ++ details)

/-- `ProxyError::server_start_failed` formats `"{server}: {err}"`. -/
def ProxyError.server_start_failed (server_name err : String) : ProxyError :=
  .ServerStartFailed (server_name ++ ": " ++ err)

/-- `ProxyError::mcp_cancelled` from `src/error.rs`. -/
def ProxyError.mcp_cancelled (action server_name : String) : ProxyError :=
  .McpProtocol ("MCP " ++ action ++ " request cancelled for " ++ server_name)

/-- `ProxyError::mcp_service_error` from `src/error.rs`. -/
def ProxyError.mcp_service_error (action err : String) : ProxyError :=
  .McpProtocol ("Failed to " ++ action ++ ": " ++ err)

/-- `ProxyError::mcp_client_stop_failed` from `src/error.rs`. -/
def ProxyError.mcp_client_stop_failed (err : String) : ProxyError :=
  .McpProtocol ("Failed to stop MCP client: " ++ err)

/-! ## Endpoint registry (`src/endpoint/registry.rs`)

The `DashMap<String, EndpointInfo>` is modelled as a list of
`EndpointInfo` looked up by name; insertion appends. -/

/-- `EndpointRegistry` from `src/endpoint/registry.rs`. -/
structure EndpointRegistry where
  endpoints : List EndpointInfo
  deriving DecidableEq, Repr

/-- `EndpointRegistry::new`. -/
def EndpointRegistry.new : EndpointRegistry := ⟨[]⟩

/-- Key lookup in the underlying map. -/
def EndpointRegistry.find? (r : EndpointRegistry) (name : String) : Option EndpointInfo :=
  r.endpoints.find? (fun i => i.name = name)

/-- `DashMap::contains_key`. -/
def EndpointRegistry.contains_key (r : EndpointRegistry) (name : String) : Bool :=
  (r.find? name).isSome

/-- The status currently stored for `name`, if registered. -/
def EndpointRegistry.statusOf (r : EndpointRegistry) (name : String) : Option EndpointStatus :=
  (r.find? name).map (fun i => i.status)

/-- `EndpointRegistry::register`: fails `ServerAlreadyExists` if the name is
already present, otherwise inserts a descriptor with status `Stopped`.
Returns the operation result together with the registry state afterwards
(the Rust method mutates `self`). -/
def EndpointRegistry.register (r : EndpointRegistry) (name path : String)
    (endpoint_type : EndpointType) : Except ProxyError Unit × EndpointRegistry :=
  if r.contains_key name then
    (.error (.ServerAlreadyExists name), r)
  else
    (.ok (), ⟨r.endpoints ++ [⟨name, path, endpoint_type, .Stopped⟩]⟩)

/-- `EndpointRegistry::get`: fails `ServerNotFound` for unknown names. -/
def EndpointRegistry.get (r : EndpointRegistry) (name : String) :
    Except ProxyError EndpointInfo :=
  match r.find? name with
  | some info => .ok info
  | none => .error (.ServerNotFound name)

/-- `EndpointRegistry::set_status`: fails `ServerNotFound` for unknown
names, otherwise overwrites the stored status (no transition validation).
Returns the result together with the registry state afterwards. -/
def EndpointRegistry.set_status (r : EndpointRegistry) (name : String)
    (status : EndpointStatus) : Except ProxyError Unit × EndpointRegistry :=
  match r.find? name with
  | some _ =>
      (.ok (),
       ⟨r.endpoints.map (fun i => if i.name = name then { i with status := status } else i)⟩)
  | none => (.error (.ServerNotFound name), r)

/-- `EndpointRegistry::list`: a snapshot of all descriptors. -/
def EndpointRegistry.list (r : EndpointRegistry) : List EndpointInfo :=
  r.endpoints

/-! ## Tool filter (`src/routing/tool_filter.rs`, `src/config/types.rs`) -/

/-- `ToolFilter` from `src/config/types.rs`: both fields are
`Option<Vec<String>>`. -/
structure ToolFilter where
  include? : Option (List String)
  exclude? : Option (List String)
  deriving DecidableEq, Repr

/-- `ToolFilter::allows` from `src/routing/tool_filter.rs`: if an include
list is present the tool must be in it, then if an exclude list is present
the tool must not be in it. -/
def ToolFilter.allows (f : ToolFilter) (tool_name : String) : Bool :=
  if (match f.include? with
      | some inc => !(inc.any (fun t => t == tool_name))
      | none => false) then
    false
  else if (match f.exclude? with
      | some exc => exc.any (fun t => t == tool_name)
      | none => false) then
    false
  else
    true

/-- `is_tool_allowed` from `src/routing/tool_filter.rs`. -/
def is_tool_allowed (tool_name : String) (filter : Option ToolFilter) : Bool :=
  match filter with
  | none => true
  | some f => f.allows tool_name

/-! ## Endpoint manager (`src/endpoint/manager.rs`)

`EndpointManager` holds the registry and a `DashMap` of endpoint
instances; the instance map is modelled by its key set (the variant
instances themselves are unchanged by lifecycle calls, their external
behaviour — the outcome of `endpoint.start()` / `endpoint.stop()` — is
passed in as a parameter).  Every call to `registry.set_status` that
actually overwrites a stored status is additionally recorded in a write
trace `(old status, new status)` so that the status state machine can be
observed. -/

/-- A recorded registry status overwrite: `(previous status, new status)`. -/
abbrev StatusWrite := EndpointStatus × EndpointStatus

/-- `registry.set_status` together with the write it performs (a successful
`set_status` on a registered name overwrites that name's stored status;
a failed one writes nothing). -/
def EndpointRegistry.set_statusW (r : EndpointRegistry) (name : String)
    (status : EndpointStatus) :
    Except ProxyError Unit × EndpointRegistry × List StatusWrite :=
  let (res, r') := r.set_status name status
  match res, r.statusOf name with
  | .ok _, some old => (res, r', [(old, status)])
  | _, _ => (res, r', [])

/-- State of `EndpointManager`: the registry plus the key set of the
`endpoints` instance map. -/
structure ManagerState where
  registry : EndpointRegistry
  endpoints : List String
  deriving DecidableEq, Repr

/-- `EndpointManager::new` (the restart delay plays no role in state
evolution). -/
def ManagerState.new : ManagerState := ⟨.new, []⟩

/-- `EndpointManager::start_endpoint`.  `variant_start` is the outcome of
`endpoint.start().await`.  Returns the call result, the manager state
afterwards, and the status writes performed, in order. -/
def start_endpoint (s : ManagerState) (name : String)
    (variant_start : Except ProxyError Unit) :
    Except ProxyError Unit × ManagerState × List StatusWrite :=
  match s.registry.get name with
  | .error e => (.error e, s, [])
  | .ok info =>
    if info.status = .Running then
      (.error (.ServerAlreadyRunning name), s, [])
    else
      let (res1, r1, w1) := s.registry.set_statusW name .Starting
      match res1 with
      | .error e => (.error e, { s with registry := r1 }, w1)
      | .ok _ =>
        if name ∈ s.endpoints then
          match variant_start with
          | .ok _ =>
            let (res2, r2, w2) := r1.set_statusW name .Running
            match res2 with
            | .ok _ => (.ok (), { s with registry := r2 }, w1 ++ w2)
            | .error e => (.error e, { s with registry := r2 }, w1 ++ w2)
          | .error e =>
            let (res2, r2, w2) := r1.set_statusW name .Failed
            match res2 with
            | .ok _ => (.error e, { s with registry := r2 }, w1 ++ w2)
            | .error status_err => (.error status_err, { s with registry := r2 }, w1 ++ w2)
        else
          (.error (.ServerNotFound name), { s with registry := r1 }, w1)

/-- `EndpointManager::stop_endpoint`.  `variant_stop` is the outcome of
`endpoint.stop().await`.  On variant-stop failure the write to `Failed` is
best-effort (its error is logged, the original error is returned). -/
def stop_endpoint (s : ManagerState) (name : String)
    (variant_stop : Except ProxyError Unit) :
    Except ProxyError Unit × ManagerState × List StatusWrite :=
  match s.registry.get name with
  | .error e => (.error e, s, [])
  | .ok info =>
    if info.status = .Stopped then
      (.error (.ServerNotRunning name), s, [])
    else
      let (res1, r1, w1) := s.registry.set_statusW name .Stopping
      match res1 with
      | .error e => (.error e, { s with registry := r1 }, w1)
      | .ok _ =>
        if name ∈ s.endpoints then
          match variant_stop with
          | .ok _ =>
            let (res2, r2, w2) := r1.set_statusW name .Stopped
            match res2 with
            | .ok _ => (.ok (), { s with registry := r2 }, w1 ++ w2)
            | .error e => (.error e, { s with registry := r2 }, w1 ++ w2)
          | .error e =>
            let (_, r2, w2) := r1.set_statusW name .Failed
            (.error e, { s with registry := r2 }, w1 ++ w2)
        else
          (.error (.ServerNotFound name), { s with registry := r1 }, w1)

/-- `EndpointManager::restart_endpoint`: stop, delay, then start; the
second step is skipped when the first fails. -/
def restart_endpoint (s : ManagerState) (name : String)
    (variant_stop variant_start : Except ProxyError Unit) :
    Except ProxyError Unit × ManagerState × List StatusWrite :=
  let (res1, s1, w1) := stop_endpoint s name variant_stop
  match res1 with
  | .error e => (.error e, s1, w1)
  | .ok _ =>
    let (res2, s2, w2) := start_endpoint s1 name variant_start
    (res2, s2, w1 ++ w2)

/-- `EndpointManager::init_local_endpoint` / `init_remote_endpoint`:
register under path = name, insert the instance, and for a local endpoint
with `auto_start` attempt a start whose error is only logged.
`auto_start` is `false` for remote endpoints. -/
def init_endpoint (s : ManagerState) (name : String) (t : EndpointType)
    (auto_start : Bool) (variant_start : Except ProxyError Unit) :
    Except ProxyError Unit × ManagerState × List StatusWrite :=
  let (res, r') := s.registry.register name name t
  match res with
  | .error e => (.error e, { s with registry := r' }, [])
  | .ok _ =>
    let s1 : ManagerState := ⟨r', s.endpoints ++ [name]⟩
    if auto_start then
      let (_, s2, w) := start_endpoint s1 name variant_start
      (.ok (), s2, w)
    else
      (.ok (), s1, [])

/-- One step of `EndpointManager::shutdown`: stop `name` only when it is
registered as a Local endpoint; the stop error is only logged. -/
def shutdown_step (s : ManagerState) (name : String)
    (variant_stop : Except ProxyError Unit) : ManagerState × List StatusWrite :=
  match s.registry.get name with
  | .ok info =>
    if info.endpoint_type = .Local then
      let (_, s', w) := stop_endpoint s name variant_stop
      (s', w)
    else
      (s, [])
  | .error _ => (s, [])

/-- `EndpointManager::shutdown`: iterate the instance map, stopping the
Local endpoints; individual errors never abort the rest. -/
def shutdown (s : ManagerState) (variant_stops : String → Except ProxyError Unit) :
    ManagerState × List StatusWrite :=
  (s.endpoints.foldl
    (fun acc name =>
      let (s', w) := shutdown_step acc.1 name (variant_stops name)
      (s', acc.2 ++ w))
    (s, []))

/-- `EndpointManager::get_client`: fails `ServerNotRunning` unless the
registry status is `Running`; `client_of` is the variant's
`get_or_create_client` outcome. -/
def get_client (s : ManagerState) (name : String)
    (client_of : Except ProxyError Unit) : Except ProxyError Unit :=
  match s.registry.get name with
  | .error e => .error e
  | .ok info =>
    if info.status ≠ .Running then .error (.ServerNotRunning name)
    else if name ∈ s.endpoints then client_of
    else .error (.ServerNotFound name)

/-! ### Manager operation traces

A closed language of manager calls, from which every registry status
write in the endpoint module originates (`grep set_status`:
`start_endpoint` and `stop_endpoint` only). -/

/-- One external manager call, with the outcomes of the variant calls it
makes passed in. -/
inductive ManagerOp
  | init (name : String) (t : EndpointType) (auto_start : Bool)
      (variant_start : Except ProxyError Unit)
  | start (name : String) (variant_start : Except ProxyError Unit)
  | stop (name : String) (variant_stop : Except ProxyError Unit)
  | restart (name : String) (variant_stop variant_start : Except ProxyError Unit)
  | shutdownAll (variant_stops : String → Except ProxyError Unit)

/-- Run one manager call, returning the state afterwards and its status
writes. -/
def runOp (s : ManagerState) : ManagerOp → ManagerState × List StatusWrite
  | .init name t auto_start variant_start =>
    let (_, s', w) := init_endpoint s name t auto_start variant_start
    (s', w)
  | .start name variant_start =>
    let (_, s', w) := start_endpoint s name variant_start
    (s', w)
  | .stop name variant_stop =>
    let (_, s', w) := stop_endpoint s name variant_stop
    (s', w)
  | .restart name variant_stop variant_start =>
    let (_, s', w) := restart_endpoint s name variant_stop variant_start
    (s', w)
  | .shutdownAll variant_stops => shutdown s variant_stops

/-- Run a sequence of manager calls from a state, accumulating all status
writes in order. -/
def runOps (s : ManagerState) : List ManagerOp → ManagerState × List StatusWrite
  | [] => (s, [])
  | op :: ops =>
    let (s', w) := runOp s op
    let (s'', w') := runOps s' ops
    (s'', w ++ w')

/-! ## MCP wire types (`src/mcp/types.rs`)

`serde_json::Value` payloads (tool input schemas, call arguments) are
opaque to all of the core's logic; they are represented by an opaque
token type. -/

/-- Stand-in for an opaque `serde_json::Value` payload (never inspected
by the embedded code). -/
structure JsonValue where
  token : String
  deriving DecidableEq, Repr

/-- `ToolDefinition` from `src/mcp/types.rs`. -/
structure ToolDefinition where
  name : String
  description : Option String
  input_schema : JsonValue
  deriving DecidableEq, Repr

/-- `ToolContent` from `src/mcp/types.rs`. -/
inductive ToolContent
  | Text (text : String)
  | Image (data : String) (mime_type : String)
  | Resource (uri : String) (mime_type : Option String)
  deriving DecidableEq, Repr

/-- `ToolCallResponse` from `src/mcp/types.rs`. -/
structure ToolCallResponse where
  content : List ToolContent
  is_error : Option Bool
  deriving DecidableEq, Repr

/-! ## Backend (rmcp) wire shapes consumed by the core -/

/-- `rmcp::model::ResourceContents`: the two resource sub-kinds. -/
inductive ResourceContents
  | TextResourceContents (uri : String) (mime_type : Option String) (text : String)
  | BlobResourceContents (uri : String) (mime_type : Option String) (blob : String)
  deriving DecidableEq, Repr

/-- `rmcp::model::RawContent` as matched by the core: the three handled
kinds plus the kinds that fall into the `_ => None` arm. -/
inductive RawContent
  | Text (text : String)
  | Image (data : String) (mime_type : String)
  | Resource (resource : ResourceContents)
  | Audio (data : String) (mime_type : String)
  | ResourceLink (uri : String)
  deriving DecidableEq, Repr

/-- A backend tool record (`rmcp::model::Tool`) as read by the listing
code: name, optional description, input schema object. -/
structure RawTool where
  name : String
  description : Option String
  input_schema : JsonValue
  deriving DecidableEq, Repr

/-- One page of a paginated `tools/list` backend response
(`rmcp::model::ListToolsResult`). -/
structure ListToolsResult where
  tools : List RawTool
  next_cursor : Option String
  deriving DecidableEq, Repr

/-- The per-tool conversion done inside the listing loop:
`ToolDefinition { name: t.name.to_string(), description: t.description.map(..),
input_schema: Value::Object(..) }`. -/
def convertTool (t : RawTool) : ToolDefinition :=
  ⟨t.name, t.description, t.input_schema⟩

/-- The content conversion in `call_tool_on_service`
(`src/mcp/runtime.rs`) and `McpClient::call_tool` (`src/mcp/client.rs`):
a `filter_map` keeping text, image and both resource sub-kinds (collapsed
to `Resource{uri, mime_type}`), dropping every other kind. -/
def convertContent : RawContent → Option ToolContent
  | .Text text => some (.Text text)
  | .Image data mime_type => some (.Image data mime_type)
  | .Resource (.TextResourceContents uri mime_type _) => some (.Resource uri mime_type)
  | .Resource (.BlobResourceContents uri mime_type _) => some (.Resource uri mime_type)
  | _ => none

/-- The backend outcome of one `service.call_tool` invocation: either an
rmcp service error (its message) or a raw result. -/
structure RawCallToolResult where
  content : List RawContent
  is_error : Option Bool
  deriving DecidableEq, Repr

/-- `call_tool_on_service` from `src/mcp/runtime.rs`, as a function of the
backend call outcome: on success maps the content through
`convertContent`; on failure wraps the service error. -/
def call_tool_on_service (backend : Except String RawCallToolResult) :
    Except ProxyError ToolCallResponse :=
  match backend with
  | .ok result =>
    .ok ⟨result.content.filterMap convertContent, result.is_error⟩
  | .error e => .error (ProxyError.mcp_service_error "call tool" e)

/-- `list_tools_from_service` from `src/mcp/runtime.rs`: starting from no
cursor, repeatedly request a page from the backend, accumulate the
converted tools, follow `next_cursor` until it is absent, and fail with
the wrapped service error if any page request fails.  The Rust `loop` is
given a fuel bound; a backend whose cursor chain terminates within the
fuel never reaches the fuel-exhausted branch. -/
def list_tools_loop (service : Option String → Except String ListToolsResult) :
    Nat → Option String → Except ProxyError (List ToolDefinition)
  | 0, _ => .error (.Internal "list tools loop did not terminate")
  | fuel + 1, cursor =>
    match service cursor with
    | .error e => .error (ProxyError.mcp_service_error "list tools" e)
    | .ok result =>
      let page := result.tools.map convertTool
      match result.next_cursor with
      | none => .ok page
      | some c =>
        match list_tools_loop service fuel (some c) with
        | .ok rest => .ok (page ++ rest)
        | .error e => .error e

/-- `list_tools_from_service` proper: the loop entered with no cursor. -/
def list_tools_from_service (service : Option String → Except String ListToolsResult)
    (fuel : Nat) : Except ProxyError (List ToolDefinition) :=
  list_tools_loop service fuel none

/-- The backend serves, from cursor `c`, exactly the non-empty chain of
pages `pages`: each page's tools are returned in order and
every page but the last carries the cursor under which the next page is
served; the last page carries no cursor. -/
inductive ServesChain (service : Option String → Except String ListToolsResult) :
    Option String → List (List RawTool) → Prop
  | last {c : Option String} {tools : List RawTool}
      (h : service c = .ok ⟨tools, none⟩) : ServesChain service c [tools]
  | step {c : Option String} {c' : String} {tools : List RawTool}
      {rest : List (List RawTool)}
      (h : service c = .ok ⟨tools, some c'⟩)
      (htail : ServesChain service (some c') rest) :
      ServesChain service c (tools :: rest)

/-- The backend, walked from cursor `c`, fails with raw error `e` after
`n` successful pages. -/
inductive ChainFails (service : Option String → Except String ListToolsResult) :
    Option String → Nat → String → Prop
  | here {c : Option String} {e : String}
      (h : service c = .error e) : ChainFails service c 0 e
  | step {c : Option String} {c' : String} {tools : List RawTool} {n : Nat} {e : String}
      (h : service c = .ok ⟨tools, some c'⟩)
      (htail : ChainFails service (some c') n e) :
      ChainFails service c (n + 1) e

/-! ## Session-actor runtime handle (`src/mcp/runtime.rs`)

`McpRuntimeHandle` holds the sender side of the worker queue and the
shared `RuntimeState` cell.  The model carries the state cell and the
queue of messages the handle has enqueued to the worker; the worker's
reply to an enqueued message is passed in as a parameter
(`reply_delivered = false` models a dropped reply channel). -/

/-- `RuntimeState` from `src/mcp/runtime.rs`. -/
inductive RuntimeState
  | Running
  | Stopped
  | Failed (reason : String)
  deriving DecidableEq, Repr

/-- The message kinds of `ServiceRequest` (payloads elided: the claim-level
observable is which messages reach the worker queue). -/
inductive ServiceRequestKind
  | ListToolsMsg
  | CallToolMsg
  | StopMsg
  deriving DecidableEq, Repr

/-- Observable state of an `McpRuntimeHandle`: the state cell plus the
messages enqueued to the worker so far. -/
structure McpRuntimeHandle where
  state : RuntimeState
  queue : List ServiceRequestKind
  deriving DecidableEq, Repr

/-- `McpRuntimeHandle::ensure_running`: `Running` passes; `Stopped` fails
`ServerNotRunning`; `Failed(details)` fails `ServerRuntimeFailed` with the
stored details. -/
def ensure_running (st : RuntimeState) (server_name : String) : Except ProxyError Unit :=
  match st with
  | .Running => .ok ()
  | .Stopped => .error (.ServerNotRunning server_name)
  | .Failed details => .error (ProxyError.server_runtime_failed server_name details)

/-- `McpRuntimeHandle::runtime_failed`: store `Failed(details)` and build
the error. -/
def runtime_failed (h : McpRuntimeHandle) (server_name details : String) :
    ProxyError × McpRuntimeHandle :=
  (ProxyError.server_runtime_failed server_name details,
   { h with state := .Failed details })

/-- `McpRuntimeHandle::list_tools`: check `ensure_running`, then enqueue
`ListTools`; `send_ok = false` models a closed worker channel,
`reply_delivered = false` a dropped reply channel, and `reply` is the
worker's answer on the reply channel. -/
def McpRuntimeHandle.list_tools (h : McpRuntimeHandle) (server_name : String)
    (send_ok : Bool) (reply_delivered : Bool)
    (reply : Except ProxyError (List ToolDefinition)) :
    Except ProxyError (List ToolDefinition) × McpRuntimeHandle :=
  match ensure_running h.state server_name with
  | .error e => (.error e, h)
  | .ok _ =>
    if send_ok then
      let h1 := { h with queue := h.queue ++ [ServiceRequestKind.ListToolsMsg] }
      if reply_delivered then (reply, h1)
      else (.error (ProxyError.mcp_cancelled "list tools" server_name), h1)
    else
      let (e, h1) := runtime_failed h server_name "worker channel closed"
      (.error e, h1)

/-- `McpRuntimeHandle::call_tool`: same shape as `list_tools` with a
`CallTool` message. -/
def McpRuntimeHandle.call_tool (h : McpRuntimeHandle) (server_name : String)
    (send_ok : Bool) (reply_delivered : Bool)
    (reply : Except ProxyError ToolCallResponse) :
    Except ProxyError ToolCallResponse × McpRuntimeHandle :=
  match ensure_running h.state server_name with
  | .error e => (.error e, h)
  | .ok _ =>
    if send_ok then
      let h1 := { h with queue := h.queue ++ [ServiceRequestKind.CallToolMsg] }
      if reply_delivered then (reply, h1)
      else (.error (ProxyError.mcp_cancelled "call tool" server_name), h1)
    else
      let (e, h1) := runtime_failed h server_name "worker channel closed"
      (.error e, h1)

/-- `McpRuntimeHandle::stop` up to the worker join: check
`ensure_running`, then enqueue `Stop`; the worker on receipt closes the
session and sets the terminal state (`Stopped` on clean close,
`Failed(reason)` on close error) before replying. -/
def McpRuntimeHandle.stop (h : McpRuntimeHandle) (server_name : String)
    (send_ok : Bool) (reply_delivered : Bool)
    (close_result : Except String Unit) :
    Except ProxyError Unit × McpRuntimeHandle :=
  match ensure_running h.state server_name with
  | .error e => (.error e, h)
  | .ok _ =>
    if send_ok then
      let h1 := { h with queue := h.queue ++ [ServiceRequestKind.StopMsg] }
      match close_result with
      | .ok _ =>
        let h2 := { h1 with state := .Stopped }
        if reply_delivered then (.ok (), h2)
        else (.error (ProxyError.mcp_cancelled "stop" server_name), h2)
      | .error err =>
        let msg := (ProxyError.mcp_client_stop_failed err)
        let h2 := { h1 with
          state := .Failed ("MCP protocol error: Failed to stop MCP client: " ++ err) }
        if reply_delivered then (.error msg, h2)
        else (.error (ProxyError.mcp_cancelled "stop" server_name), h2)
    else
      let (e, h1) := runtime_failed h server_name "worker channel closed"
      (.error e, h1)

/-! ## MCP client handshake (`src/mcp/client.rs`) -/

/-- The outcome of `serve_with_ct(transport, ct)` under
`tokio::time::timeout`: elapsed before completion, completed with a
protocol/format failure (its debug message), or completed successfully. -/
inductive HandshakeOutcome
  | timeout
  | protocolError (details : String)
  | success
  deriving DecidableEq, Repr

/-- `McpClient::init_with_transport` (`src/mcp/client.rs`), as a function
of the handshake outcome.  Returns the call result together with whether
the cancellation token was cancelled (`ct.cancel()` runs only in the
timeout arm).  `HANDSHAKE_TIMEOUT` is 30s; `{:?}` on the `Duration`
prints `30s`. -/
def init_with_transport (server_name : String) (outcome : HandshakeOutcome) :
    Except ProxyError Unit × Bool :=
  match outcome with
  | .timeout =>
    (.error (.McpProtocol
       ("MCP handshake timed out after 30s for server: " ++ server_name)), true)
  | .protocolError details =>
    (.error (.McpProtocol ("Failed to initialize MCP client: " ++ details)), false)
  | .success => (.ok (), false)

/-! ## Local endpoint variant (`src/endpoint/local.rs`)

`LocalEndpoint` holds `mcp_client : Option<Arc<McpClient>>`; the stored
client is modelled by an `Option Unit` presence flag (the client object
itself carries no state the claims inspect beyond presence). -/

/-- `LocalEndpoint::get_client`: fails `ServerNotRunning` when no client
is stored. -/
def LocalEndpoint.get_client (mcp_client : Option Unit) (name : String) :
    Except ProxyError Unit :=
  match mcp_client with
  | some c => .ok c
  | none => .error (.ServerNotRunning name)

/-- `LocalEndpoint::start`: rejected `ServerAlreadyRunning` when a client
is already stored; otherwise spawn the subprocess (`spawn` is the
`TokioChildProcess::new` outcome, carrying the io error message on
failure), run the handshake via `init_with_transport`, and only on
success store the new client.  Returns the result and the stored-client
state afterwards. -/
def LocalEndpoint.start (mcp_client : Option Unit) (name : String)
    (spawn : Except String Unit) (handshake : HandshakeOutcome) :
    Except ProxyError Unit × Option Unit :=
  match mcp_client with
  | some _ => (.error (.ServerAlreadyRunning name), mcp_client)
  | none =>
    match spawn with
    | .error e => (.error (.ServerStartFailed (name ++ ": " ++ e)), mcp_client)
    | .ok _ =>
      match (init_with_transport name handshake).1 with
      | .error e => (.error e, mcp_client)
      | .ok _ => (.ok (), some ())

/-- `LocalEndpoint::stop`: fails `ServerNotRunning` when no client is
stored, otherwise clears it. -/
def LocalEndpoint.stop (mcp_client : Option Unit) (name : String) :
    Except ProxyError Unit × Option Unit :=
  match mcp_client with
  | none => (.error (.ServerNotRunning name), mcp_client)
  | some _ => (.ok (), none)

/-! ## Spec-side characterisations

These definitions follow the specification's words (not the source) and
exist to compare the spec's description with the embedded code. -/

/-- Spec: "Status transitions: `Stopped → Starting → Running → Stopping →
Stopped`, or any active state `→ Failed` on error." -/
def documentedTransition (o n : EndpointStatus) : Bool :=
  (o == .Stopped && n == .Starting) || (o == .Starting && n == .Running) ||
  (o == .Running && n == .Stopping) || (o == .Stopping && n == .Stopped) ||
  ((o == .Starting || o == .Running || o == .Stopping) && n == .Failed)

/-- The status writes the manager's lifecycle operations can actually
perform: any non-`Running` status to `Starting`, `Starting` to
`Running`/`Failed`, any non-`Stopped` status to `Stopping`, and `Stopping`
to `Stopped`/`Failed`. -/
def managerWriteStep (o n : EndpointStatus) : Bool :=
  (n == .Starting && !(o == .Running)) ||
  (o == .Starting && (n == .Running || n == .Failed)) ||
  (n == .Stopping && !(o == .Stopped)) ||
  (o == .Stopping && (n == .Stopped || n == .Failed))

/-- Spec: a backend content item of a kind the proxy carries over (text,
image, or either resource sub-kind). -/
def specKeptContent : RawContent → Bool
  | .Text _ => true
  | .Image _ _ => true
  | .Resource _ => true
  | _ => false

/-- Spec: the carried-over rendering of a kept backend content item; both
resource sub-kinds collapse to `Resource{uri, mimeType?}` (the value on
dropped kinds is irrelevant: they are filtered out first). -/
def specRenderContent : RawContent → ToolContent
  | .Text text => .Text text
  | .Image data mime_type => .Image data mime_type
  | .Resource (.TextResourceContents uri mime_type _) => .Resource uri mime_type
  | .Resource (.BlobResourceContents uri mime_type _) => .Resource uri mime_type
  | .Audio _ _ => .Text ""
  | .ResourceLink _ => .Text ""

/-! ## Helper lemmas -/

/-- Overwriting one name's status commutes with lookup of that name. -/
theorem find?_map_set (l : List EndpointInfo) (name : String) (st : EndpointStatus) :
    (l.map (fun i => if i.name = name then { i with status := st } else i)).find?
        (fun i => i.name = name) =
      (l.find? (fun i => i.name = name)).map (fun i => { i with status := st }) := by
  induction l with
  | nil => simp
  | cons a l ih =>
    by_cases h : a.name = name
    · simp [List.find?, h]
    · simp [List.find?, h, ih]

/-- `set_statusW` on a registered name: succeeds, performs the map update,
and records exactly the write `(old status, new status)`. -/
theorem set_statusW_present (r : EndpointRegistry) (name : String)
    (st : EndpointStatus) (info : EndpointInfo) (h : r.find? name = some info) :
    r.set_statusW name st =
      (.ok (),
       ⟨r.endpoints.map (fun i => if i.name = name then { i with status := st } else i)⟩,
       [(info.status, st)]) := by
  unfold EndpointRegistry.set_statusW EndpointRegistry.set_status EndpointRegistry.statusOf
  rw [h]
  rfl

/-- After a successful `set_status`, the name's descriptor carries the new
status. -/
theorem find?_after_set (r : EndpointRegistry) (name : String)
    (st : EndpointStatus) (info : EndpointInfo) (h : r.find? name = some info) :
    EndpointRegistry.find?
        ⟨r.endpoints.map (fun i => if i.name = name then { i with status := st } else i)⟩
        name = some { info with status := st } := by
  unfold EndpointRegistry.find? at *
  rw [find?_map_set, h]
  rfl

/-- `get` agrees with `find?`. -/
theorem get_eq_of_find? (r : EndpointRegistry) (name : String)
    (info : EndpointInfo) (h : r.find? name = some info) :
    r.get name = .ok info := by
  unfold EndpointRegistry.get
  rw [h]

/-! ## Claims -/

/-- C3 counterexample: the filter `{include: Some([]), exclude: None}` has
an empty include set and excludes nothing, so by the claimed invariant
`allowed("a")` should hold; the code rejects every name once an include
list is present, even an empty one. -/
theorem C3_counterexample :
    ((ToolFilter.mk (some []) none).include?.getD [] = [] ∧
      "a" ∉ (ToolFilter.mk (some []) none).exclude?.getD []) ∧
      (ToolFilter.mk (some []) none).allows "a" = false := by
  decide

/-- C3 (amended): `allowed(name) = (include ABSENT ∨ name ∈ include) ∧
(name ∉ exclude)` — an include list that is present but empty allows
nothing; exclude always wins over include; and the claim's concrete
examples hold: include `{a,b}` with empty exclude allows `"a"` and not
`"c"`, include `{a,b}` with exclude `{b}` allows `"a"` and not `"b"`. -/
theorem C3_tool_filter_allows :
    (∀ (f : ToolFilter) (name : String),
      f.allows name = true ↔
        (f.include? = none ∨ ∃ inc, f.include? = some inc ∧ name ∈ inc) ∧
        (∀ exc, f.exclude? = some exc → name ∉ exc)) ∧
    is_tool_allowed "a" (some (ToolFilter.mk (some ["a", "b"]) (some []))) = true ∧
    is_tool_allowed "c" (some (ToolFilter.mk (some ["a", "b"]) (some []))) = false ∧
    is_tool_allowed "a" (some (ToolFilter.mk (some ["a", "b"]) (some ["b"]))) = true ∧
    is_tool_allowed "b" (some (ToolFilter.mk (some ["a", "b"]) (some ["b"]))) = false := by
  refine ⟨fun f name => ?_, by decide, by decide, by decide, by decide⟩
  obtain ⟨inc?, exc?⟩ := f
  cases inc? <;> cases exc? <;> simp [ToolFilter.allows, List.any_eq_true]

/-- C4 counterexample: registering name `"b"` under path `"p"` after
`"a"` was registered under the same path `"p"` succeeds — `register`
checks name uniqueness only, never path uniqueness. -/
theorem C4_counterexample :
    (EndpointRegistry.new.register "a" "p" .Local).1 = .ok () ∧
    (((EndpointRegistry.new.register "a" "p" .Local).2).register "b" "p" .Local).1 = .ok () ∧
    ((((EndpointRegistry.new.register "a" "p" .Local).2).register "b" "p" .Local).2).list =
      [⟨"a", "p", .Local, .Stopped⟩, ⟨"b", "p", .Local, .Stopped⟩] := by
  refine ⟨by rfl, by rfl, by rfl⟩

/-- C4 (amended): registering a duplicate NAME fails `AlreadyExists` and
leaves the registry — in particular the first registration's descriptor —
unmodified; a duplicate path under a fresh name is NOT rejected (the
manager always registers `path = name`, so through the manager paths
collide only when names do). -/
theorem C4_register_duplicate_name (r : EndpointRegistry) (name : String)
    (info : EndpointInfo) (h : r.find? name = some info) :
    ∀ (path : String) (t : EndpointType),
      r.register name path t = (.error (.ServerAlreadyExists name), r) ∧
      r.find? name = some info := by
  intro path t
  refine ⟨?_, h⟩
  unfold EndpointRegistry.register EndpointRegistry.contains_key
  rw [h]
  rfl

/-- C4 witness: the duplicate-name rejection applied to a concrete
registry. -/
theorem C4_register_duplicate_name_witness :
    (EndpointRegistry.mk [⟨"a", "p", .Local, .Stopped⟩]).register "a" "q" .Remote =
      (.error (.ServerAlreadyExists "a"), ⟨[⟨"a", "p", .Local, .Stopped⟩]⟩) :=
  (C4_register_duplicate_name ⟨[⟨"a", "p", .Local, .Stopped⟩]⟩ "a"
    ⟨"a", "p", .Local, .Stopped⟩ rfl "q" .Remote).1

/-- C5 counterexample: the handshake-timeout error and the
handshake-format error are the SAME error type — both are
`ProxyError::McpProtocol` — so they are distinguishable only by message
text, not by error type as the claim requires. -/
theorem C5_counterexample :
    (init_with_transport "s" .timeout).1 =
      .error (.McpProtocol "MCP handshake timed out after 30s for server: s") ∧
    (init_with_transport "s" (.protocolError "bad frame")).1 =
      .error (.McpProtocol "Failed to initialize MCP client: bad frame") ∧
    (ProxyError.McpProtocol "MCP handshake timed out after 30s for server: s").kind =
      (ProxyError.McpProtocol "Failed to initialize MCP client: bad frame").kind := by
  refine ⟨by rfl, by rfl, by rfl⟩

/-- C5 (amended): a handshake exceeding the 30s timeout fails with a
`McpProtocol` error carrying a timed-out message, and the expiry cancels
the in-progress attempt (the cancellation token is cancelled exactly in
the timeout arm); the timeout error differs from every handshake
protocol/format error as a value (its message differs), but has the same
`McpProtocol` error type. -/
theorem C5_handshake_timeout (name details : String) :
    (init_with_transport name .timeout).1 =
      .error (.McpProtocol ("MCP handshake timed out after 30s for server: " ++ name)) ∧
    (init_with_transport name .timeout).2 = true ∧
    (init_with_transport name (.protocolError details)).2 = false ∧
    (init_with_transport name .success) = (.ok (), false) ∧
    (init_with_transport name .timeout).1 ≠
      (init_with_transport name (.protocolError details)).1 ∧
    errorKind? (init_with_transport name .timeout).1 = some .McpProtocol ∧
    errorKind? (init_with_transport name (.protocolError details)).1 = some .McpProtocol := by
  refine ⟨rfl, rfl, rfl, rfl, ?_, rfl, rfl⟩
  intro h
  simp only [init_with_transport] at h
  have h2 := congrArg String.data (ProxyError.McpProtocol.inj (Except.error.inj h))
  simp [String.data_append] at h2

/-- C1: `start_endpoint` fails `ServerNotFound` for an unknown name and
`ServerAlreadyRunning` for a `Running` one, touching nothing; otherwise
it writes `Starting`, invokes the variant start, writes `Running` on
success and `Failed` on error, returns exactly the variant's outcome —
on failure the variant's original error, never a status-write error (for
a registered name the `Failed` write always succeeds: the registry
supports no removal) — and leaves the registry status at
`Running`/`Failed` accordingly. -/
theorem C1_start_endpoint (s : ManagerState) (name : String)
    (variant_start : Except ProxyError Unit) :
    (s.registry.find? name = none →
      start_endpoint s name variant_start = (.error (.ServerNotFound name), s, [])) ∧
    (∀ info, s.registry.find? name = some info →
      (info.status = .Running →
        start_endpoint s name variant_start = (.error (.ServerAlreadyRunning name), s, [])) ∧
      (info.status ≠ .Running → name ∈ s.endpoints →
        (start_endpoint s name variant_start).2.2 =
          (info.status, .Starting) ::
            (match variant_start with
             | .ok _ => [(.Starting, .Running)]
             | .error _ => [(.Starting, .Failed)]) ∧
        (start_endpoint s name variant_start).1 = variant_start ∧
        (start_endpoint s name variant_start).2.1.registry.statusOf name =
          some (match variant_start with
                | .ok _ => .Running
                | .error _ => .Failed))) := by
  constructor
  · intro h
    simp only [start_endpoint, EndpointRegistry.get, h]
  · intro info h
    have hget : s.registry.get name = .ok info := get_eq_of_find? s.registry name info h
    constructor
    · intro hrun
      simp only [start_endpoint, hget, if_pos hrun]
    · intro hne hmem
      have h1 := set_statusW_present s.registry name .Starting info h
      have hfind1 := find?_after_set s.registry name .Starting info h
      cases variant_start with
      | ok u =>
        have h2 := set_statusW_present _ name .Running _ hfind1
        have hfind2 := find?_after_set _ name .Running _ hfind1
        simp only [start_endpoint, hget, if_neg hne, h1, if_pos hmem, h2,
          EndpointRegistry.statusOf, hfind2]
        exact ⟨by trivial, by trivial, by trivial⟩
      | error e =>
        have h2 := set_statusW_present _ name .Failed _ hfind1
        have hfind2 := find?_after_set _ name .Failed _ hfind1
        simp only [start_endpoint, hget, if_neg hne, h1, if_pos hmem, h2,
          EndpointRegistry.statusOf, hfind2]
        exact ⟨by trivial, by trivial, by trivial⟩

/-- C1 witness: a registered, stopped endpoint whose variant start fails
returns that original error, with status ending `Failed` after the writes
`Stopped → Starting → Failed`. -/
theorem C1_start_endpoint_witness :
    (start_endpoint ⟨⟨[⟨"a", "a", .Local, .Stopped⟩]⟩, ["a"]⟩ "a"
        (.error (.ServerStartFailed "a: boom"))).2.2 =
      [(.Stopped, .Starting), (.Starting, .Failed)] ∧
    (start_endpoint ⟨⟨[⟨"a", "a", .Local, .Stopped⟩]⟩, ["a"]⟩ "a"
        (.error (.ServerStartFailed "a: boom"))).1 =
      .error (.ServerStartFailed "a: boom") := by
  have h := (C1_start_endpoint ⟨⟨[⟨"a", "a", .Local, .Stopped⟩]⟩, ["a"]⟩ "a"
    (.error (.ServerStartFailed "a: boom"))).2 ⟨"a", "a", .Local, .Stopped⟩ rfl
  have h2 := h.2 (by decide) (by decide)
  exact ⟨h2.1, h2.2.1⟩

/-- C10: `stop_endpoint` is rejected `ServerNotRunning` exactly when the
registry status is `Stopped`; in every other status — `Failed`,
`Starting` and `Stopping` included — it proceeds: it writes `Stopping`,
invokes the variant stop, and mirrors the variant's outcome (`Stopped`
write and success, or `Failed` write and the original error), so a
`Failed` endpoint can be stopped. -/
theorem C10_stop_endpoint (s : ManagerState) (name : String)
    (variant_stop : Except ProxyError Unit) :
    (∀ info, s.registry.find? name = some info →
      (info.status = .Stopped →
        stop_endpoint s name variant_stop = (.error (.ServerNotRunning name), s, [])) ∧
      (info.status ≠ .Stopped → name ∈ s.endpoints →
        (stop_endpoint s name variant_stop).2.2 =
          (info.status, .Stopping) ::
            (match variant_stop with
             | .ok _ => [(.Stopping, .Stopped)]
             | .error _ => [(.Stopping, .Failed)]) ∧
        (stop_endpoint s name variant_stop).1 = variant_stop ∧
        (stop_endpoint s name variant_stop).2.1.registry.statusOf name =
          some (match variant_stop with
                | .ok _ => .Stopped
                | .error _ => .Failed))) := by
  intro info h
  have hget : s.registry.get name = .ok info := get_eq_of_find? s.registry name info h
  constructor
  · intro hstop
    simp only [stop_endpoint, hget, if_pos hstop]
  · intro hne hmem
    have h1 := set_statusW_present s.registry name .Stopping info h
    have hfind1 := find?_after_set s.registry name .Stopping info h
    cases variant_stop with
    | ok u =>
      have h2 := set_statusW_present _ name .Stopped _ hfind1
      have hfind2 := find?_after_set _ name .Stopped _ hfind1
      simp only [stop_endpoint, hget, if_neg hne, h1, if_pos hmem, h2,
        EndpointRegistry.statusOf, hfind2]
      exact ⟨by trivial, by trivial, by trivial⟩
    | error e =>
      have h2 := set_statusW_present _ name .Failed _ hfind1
      have hfind2 := find?_after_set _ name .Failed _ hfind1
      simp only [stop_endpoint, hget, if_neg hne, h1, if_pos hmem, h2,
        EndpointRegistry.statusOf, hfind2]
      exact ⟨by trivial, by trivial, by trivial⟩

/-- C10 witness: stopping a `Failed` endpoint proceeds — it writes
`Failed → Stopping → Stopped` and succeeds — while stopping a `Stopped`
endpoint is rejected `ServerNotRunning`. -/
theorem C10_stop_endpoint_witness :
    (stop_endpoint ⟨⟨[⟨"a", "a", .Local, .Failed⟩]⟩, ["a"]⟩ "a" (.ok ())).2.2 =
      [(.Failed, .Stopping), (.Stopping, .Stopped)] ∧
    (stop_endpoint ⟨⟨[⟨"a", "a", .Local, .Failed⟩]⟩, ["a"]⟩ "a" (.ok ())).1 = .ok () ∧
    stop_endpoint ⟨⟨[⟨"a", "a", .Local, .Stopped⟩]⟩, ["a"]⟩ "a" (.ok ()) =
      (.error (.ServerNotRunning "a"), ⟨⟨[⟨"a", "a", .Local, .Stopped⟩]⟩, ["a"]⟩, []) := by
  have h := (C10_stop_endpoint ⟨⟨[⟨"a", "a", .Local, .Failed⟩]⟩, ["a"]⟩ "a" (.ok ()))
    ⟨"a", "a", .Local, .Failed⟩ rfl
  have h2 := h.2 (by decide) (by decide)
  have h3 := ((C10_stop_endpoint ⟨⟨[⟨"a", "a", .Local, .Stopped⟩]⟩, ["a"]⟩ "a" (.ok ()))
    ⟨"a", "a", .Local, .Stopped⟩ rfl).1 rfl
  exact ⟨h2.1, h2.2.1, h3⟩

/-- C2: against a `Stopped` or `Failed` session-actor handle, `list_tools`
and `call_tool` fail immediately — `ServerNotRunning` when `Stopped`,
`ServerRuntimeFailed` with the stored reason when `Failed` — with the
handle returned untouched: nothing is enqueued to the worker (no backend
contact) and the `Failed` state persists, so every subsequent operation,
`stop` included, short-circuits to the same stored error (a restart
builds a fresh handle). -/
theorem C2_runtime_short_circuit (h : McpRuntimeHandle) (name : String)
    (send_ok reply_delivered : Bool)
    (lt_reply : Except ProxyError (List ToolDefinition))
    (ct_reply : Except ProxyError ToolCallResponse)
    (close_result : Except String Unit) :
    (h.state = .Stopped →
      h.list_tools name send_ok reply_delivered lt_reply =
        (.error (.ServerNotRunning name), h) ∧
      h.call_tool name send_ok reply_delivered ct_reply =
        (.error (.ServerNotRunning name), h)) ∧
    (∀ reason, h.state = .Failed reason →
      h.list_tools name send_ok reply_delivered lt_reply =
        (.error (ProxyError.server_runtime_failed name reason), h) ∧
      h.call_tool name send_ok reply_delivered ct_reply =
        (.error (ProxyError.server_runtime_failed name reason), h) ∧
      h.stop name send_ok reply_delivered close_result =
        (.error (ProxyError.server_runtime_failed name reason), h)) := by
  constructor
  · intro hst
    constructor <;>
      simp [McpRuntimeHandle.list_tools, McpRuntimeHandle.call_tool, ensure_running, hst]
  · intro reason hst
    refine ⟨?_, ?_, ?_⟩ <;>
      simp [McpRuntimeHandle.list_tools, McpRuntimeHandle.call_tool,
        McpRuntimeHandle.stop, ensure_running, hst]

/-- C2 witness: concrete `Stopped` and `Failed` handles short-circuit with
an empty message queue left empty. -/
theorem C2_runtime_short_circuit_witness :
    (McpRuntimeHandle.mk .Stopped []).list_tools "s" true true (.ok []) =
      (.error (.ServerNotRunning "s"), ⟨.Stopped, []⟩) ∧
    (McpRuntimeHandle.mk (.Failed "boom") []).call_tool "s" true true
        (.ok ⟨[], none⟩) =
      (.error (ProxyError.server_runtime_failed "s" "boom"), ⟨.Failed "boom", []⟩) := by
  have h1 := (C2_runtime_short_circuit ⟨.Stopped, []⟩ "s" true true (.ok [])
    (.ok ⟨[], none⟩) (.ok ())).1 rfl
  have h2 := (C2_runtime_short_circuit ⟨.Failed "boom", []⟩ "s" true true (.ok [])
    (.ok ⟨[], none⟩) (.ok ())).2 "boom" rfl
  exact ⟨h1.1, h2.2.1⟩

/-- C8: a Local endpoint start attempt that fails — subprocess spawn
failure, handshake timeout, or handshake protocol failure — returns the
corresponding error and leaves the stored client exactly as before the
attempt (absent), so a subsequent `get_client` still fails
`ServerNotRunning`; only a fully successful start stores a client. -/
theorem C8_local_start_clean_failure (name : String) (hs : HandshakeOutcome) :
    (∀ err : String,
      LocalEndpoint.start none name (.error err) hs =
        (.error (.ServerStartFailed (name ++ ": " ++ err)), none)) ∧
    LocalEndpoint.start none name (.ok ()) .timeout =
      (.error (.McpProtocol ("MCP handshake timed out after 30s for server: " ++ name)),
       none) ∧
    (∀ details : String,
      LocalEndpoint.start none name (.ok ()) (.protocolError details) =
        (.error (.McpProtocol ("Failed to initialize MCP client: " ++ details)), none)) ∧
    LocalEndpoint.get_client none name = .error (.ServerNotRunning name) ∧
    LocalEndpoint.start none name (.ok ()) .success = (.ok (), some ()) :=
  ⟨fun _ => rfl, rfl, fun _ => rfl, rfl, rfl⟩

/-- The content `filter_map` is the filter-then-render of the
specification: keep exactly the text/image/resource items, render each in
place. -/
theorem filterMap_convertContent (content : List RawContent) :
    content.filterMap convertContent =
      (content.filter (fun c => specKeptContent c)).map specRenderContent := by
  induction content with
  | nil => rfl
  | cons c rest ih =>
    rcases c with t | ⟨d, m⟩ | res | ⟨d, m⟩ | u
    · simp [List.filterMap_cons, convertContent, specKeptContent, specRenderContent, ih]
    · simp [List.filterMap_cons, convertContent, specKeptContent, specRenderContent, ih]
    · rcases res with ⟨uri, mime, txt⟩ | ⟨uri, mime, blob⟩ <;>
        simp [List.filterMap_cons, convertContent, specKeptContent, specRenderContent, ih]
    · simp [List.filterMap_cons, convertContent, specKeptContent, specRenderContent, ih]
    · simp [List.filterMap_cons, convertContent, specKeptContent, specRenderContent, ih]

/-- C9: on a successful backend call, the response content is exactly the
backend items of kind text, image, or resource, in their original
relative order, with both resource sub-kinds collapsed to
`Resource{uri, mimeType?}`; every other kind is silently dropped (never
an error), so the response is at most as long as the backend content; a
failed backend call propagates as a wrapped error. -/
theorem C9_call_tool_content (content : List RawContent) (is_error : Option Bool)
    (e : String) :
    call_tool_on_service (.ok ⟨content, is_error⟩) =
      .ok ⟨(content.filter (fun c => specKeptContent c)).map specRenderContent,
           is_error⟩ ∧
    ((content.filter (fun c => specKeptContent c)).map specRenderContent).length ≤
      content.length ∧
    call_tool_on_service (.error e) =
      .error (.McpProtocol ("Failed to call tool: " ++ e)) := by
  refine ⟨?_, ?_, rfl⟩
  · simp only [call_tool_on_service, filterMap_convertContent]
  · rw [List.length_map]
    exact List.length_filter_le _ _

/-- The listing loop, entered at any cursor serving a finite page chain,
returns the in-order concatenation of the converted pages. -/
theorem list_tools_loop_chain (service : Option String → Except String ListToolsResult)
    (pages : List (List RawTool)) (c : Option String)
    (h : ServesChain service c pages) :
    ∀ fuel, pages.length ≤ fuel →
      list_tools_loop service fuel c =
        .ok ((pages.map (fun p => p.map convertTool)).flatten) := by
  induction h with
  | last hsvc =>
    intro fuel hf
    cases fuel with
    | zero => simp at hf
    | succ f => simp [list_tools_loop, hsvc]
  | step hsvc htail ih =>
    intro fuel hf
    cases fuel with
    | zero => simp at hf
    | succ f =>
      have hrec := ih f (by simpa using hf)
      simp [list_tools_loop, hsvc, hrec]

/-- The listing loop, entered at any cursor whose walk fails at page
`n`, propagates the wrapped service error. -/
theorem list_tools_loop_fails (service : Option String → Except String ListToolsResult)
    (c : Option String) (n : Nat) (e : String)
    (h : ChainFails service c n e) :
    ∀ fuel, n < fuel →
      list_tools_loop service fuel c =
        .error (ProxyError.mcp_service_error "list tools" e) := by
  induction h with
  | here hsvc =>
    intro fuel hf
    cases fuel with
    | zero => omega
    | succ f => simp [list_tools_loop, hsvc]
  | step hsvc htail ih =>
    intro fuel hf
    cases fuel with
    | zero => omega
    | succ f =>
      have hrec := ih f (by omega)
      simp [list_tools_loop, hsvc, hrec]

/-- C7: `list_tools_from_service` starts at no cursor and follows each
returned `next_cursor` until it is absent; against a backend serving a
finite cursor chain of pages it returns exactly the concatenation of all
pages' converted tool definitions in page order (within-page order and
name/description preserved by `convertTool`); if any page request fails
it returns that (wrapped) error. -/
theorem C7_list_tools_pagination (service : Option String → Except String ListToolsResult) :
    (∀ (pages : List (List RawTool)) (fuel : Nat),
      ServesChain service none pages → pages.length ≤ fuel →
      list_tools_from_service service fuel =
        .ok ((pages.map (fun p => p.map convertTool)).flatten)) ∧
    (∀ (n : Nat) (e : String) (fuel : Nat),
      ChainFails service none n e → n < fuel →
      list_tools_from_service service fuel =
        .error (ProxyError.mcp_service_error "list tools" e)) :=
  ⟨fun pages fuel h hf => list_tools_loop_chain service pages none h fuel hf,
   fun n e fuel h hf => list_tools_loop_fails service none n e h fuel hf⟩

/-- C7 witness: a two-page backend (cursor `"p1"` after the first page)
is concatenated in page order; a backend failing on its second page
propagates the error. -/
theorem C7_list_tools_pagination_witness :
    list_tools_from_service
      (fun c => match c with
        | none => .ok ⟨[⟨"t1", none, ⟨"o"⟩⟩, ⟨"t2", some "d", ⟨"o"⟩⟩], some "p1"⟩
        | some _ => .ok ⟨[⟨"t3", none, ⟨"o"⟩⟩], none⟩) 2 =
      .ok [⟨"t1", none, ⟨"o"⟩⟩, ⟨"t2", some "d", ⟨"o"⟩⟩, ⟨"t3", none, ⟨"o"⟩⟩] ∧
    list_tools_from_service
      (fun c => match c with
        | none => .ok ⟨[⟨"t1", none, ⟨"o"⟩⟩], some "p1"⟩
        | some _ => .error "boom") 2 =
      .error (.McpProtocol "Failed to list tools: boom") := by
  constructor
  · have h := (C7_list_tools_pagination
      (fun c => match c with
        | none => .ok ⟨[⟨"t1", none, ⟨"o"⟩⟩, ⟨"t2", some "d", ⟨"o"⟩⟩], some "p1"⟩
        | some _ => .ok ⟨[⟨"t3", none, ⟨"o"⟩⟩], none⟩)).1
      [[⟨"t1", none, ⟨"o"⟩⟩, ⟨"t2", some "d", ⟨"o"⟩⟩], [⟨"t3", none, ⟨"o"⟩⟩]] 2
      (ServesChain.step rfl (ServesChain.last rfl)) (by decide)
    simpa using h
  · have h := (C7_list_tools_pagination
      (fun c => match c with
        | none => .ok ⟨[⟨"t1", none, ⟨"o"⟩⟩], some "p1"⟩
        | some _ => .error "boom")).2 1 "boom" 2
      (ChainFails.step rfl (ChainFails.here rfl)) (by decide)
    simpa [ProxyError.mcp_service_error] using h

/-- Any status other than `Running` may be overwritten to `Starting`. -/
theorem managerWriteStep_to_starting (o : EndpointStatus) (h : o ≠ .Running) :
    managerWriteStep o .Starting = true := by
  cases o <;> first | exact absurd rfl h | decide

/-- Any status other than `Stopped` may be overwritten to `Stopping`. -/
theorem managerWriteStep_to_stopping (o : EndpointStatus) (h : o ≠ .Stopped) :
    managerWriteStep o .Stopping = true := by
  cases o <;> first | exact absurd rfl h | decide

/-- Every status write of one `start_endpoint` call is a manager write
step. -/
theorem start_endpoint_writes (s : ManagerState) (name : String)
    (vs : Except ProxyError Unit) :
    ∀ w ∈ (start_endpoint s name vs).2.2, managerWriteStep w.1 w.2 = true := by
  intro w hw
  rcases hfind : s.registry.find? name with _ | info
  · have hget : s.registry.get name = .error (.ServerNotFound name) := by
      unfold EndpointRegistry.get
      rw [hfind]
    simp [start_endpoint, hget] at hw
  · have hget : s.registry.get name = .ok info := get_eq_of_find? s.registry name info hfind
    by_cases hrun : info.status = .Running
    · simp [start_endpoint, hget, hrun] at hw
    · have h1 := set_statusW_present s.registry name .Starting info hfind
      have hfind1 := find?_after_set s.registry name .Starting info hfind
      by_cases hmem : name ∈ s.endpoints
      · cases vs with
        | ok u =>
          have h2 := set_statusW_present _ name .Running _ hfind1
          simp [start_endpoint, hget, hrun, h1, hmem, h2] at hw
          rcases hw with rfl | rfl
          · exact managerWriteStep_to_starting info.status hrun
          · decide
        | error e =>
          have h2 := set_statusW_present _ name .Failed _ hfind1
          simp [start_endpoint, hget, hrun, h1, hmem, h2] at hw
          rcases hw with rfl | rfl
          · exact managerWriteStep_to_starting info.status hrun
          · decide
      · simp [start_endpoint, hget, hrun, h1, hmem] at hw
        subst hw
        exact managerWriteStep_to_starting info.status hrun

/-- Every status write of one `stop_endpoint` call is a manager write
step. -/
theorem stop_endpoint_writes (s : ManagerState) (name : String)
    (vstop : Except ProxyError Unit) :
    ∀ w ∈ (stop_endpoint s name vstop).2.2, managerWriteStep w.1 w.2 = true := by
  intro w hw
  rcases hfind : s.registry.find? name with _ | info
  · have hget : s.registry.get name = .error (.ServerNotFound name) := by
      unfold EndpointRegistry.get
      rw [hfind]
    simp [stop_endpoint, hget] at hw
  · have hget : s.registry.get name = .ok info := get_eq_of_find? s.registry name info hfind
    by_cases hstp : info.status = .Stopped
    · simp [stop_endpoint, hget, hstp] at hw
    · have h1 := set_statusW_present s.registry name .Stopping info hfind
      have hfind1 := find?_after_set s.registry name .Stopping info hfind
      by_cases hmem : name ∈ s.endpoints
      · cases vstop with
        | ok u =>
          have h2 := set_statusW_present _ name .Stopped _ hfind1
          simp [stop_endpoint, hget, hstp, h1, hmem, h2] at hw
          rcases hw with rfl | rfl
          · exact managerWriteStep_to_stopping info.status hstp
          · decide
        | error e =>
          have h2 := set_statusW_present _ name .Failed _ hfind1
          simp [stop_endpoint, hget, hstp, h1, hmem, h2] at hw
          rcases hw with rfl | rfl
          · exact managerWriteStep_to_stopping info.status hstp
          · decide
      · simp [stop_endpoint, hget, hstp, h1, hmem] at hw
        subst hw
        exact managerWriteStep_to_stopping info.status hstp

/-- Every status write of one `restart_endpoint` call is a manager write
step. -/
theorem restart_endpoint_writes (s : ManagerState) (name : String)
    (vstop vstart : Except ProxyError Unit) :
    ∀ w ∈ (restart_endpoint s name vstop vstart).2.2,
      managerWriteStep w.1 w.2 = true := by
  intro w hw
  unfold restart_endpoint at hw
  rcases hres : stop_endpoint s name vstop with ⟨res1, s1, w1⟩
  rw [hres] at hw
  have hstop : ∀ w2 ∈ w1, managerWriteStep w2.1 w2.2 = true := by
    intro w2 h2
    exact stop_endpoint_writes s name vstop w2 (by rw [hres]; exact h2)
  cases res1 with
  | error e => exact hstop w (by simpa using hw)
  | ok u =>
    dsimp only at hw
    rcases hres2 : start_endpoint s1 name vstart with ⟨res2, s2, w2⟩
    rw [hres2] at hw
    dsimp only at hw
    rcases List.mem_append.mp hw with h | h
    · exact hstop w h
    · exact start_endpoint_writes s1 name vstart w (by rw [hres2]; exact h)

/-- Every status write of one `init_endpoint` call is a manager write
step. -/
theorem init_endpoint_writes (s : ManagerState) (name : String) (t : EndpointType)
    (auto_start : Bool) (vs : Except ProxyError Unit) :
    ∀ w ∈ (init_endpoint s name t auto_start vs).2.2,
      managerWriteStep w.1 w.2 = true := by
  intro w hw
  unfold init_endpoint at hw
  rcases hreg : s.registry.register name name t with ⟨res, r'⟩
  rw [hreg] at hw
  cases res with
  | error e => simp at hw
  | ok u =>
    cases auto_start with
    | false => simp at hw
    | true =>
      rcases hstart : start_endpoint ⟨r', s.endpoints ++ [name]⟩ name vs with ⟨res2, s2, w2⟩
      simp only [hstart] at hw
      exact start_endpoint_writes ⟨r', s.endpoints ++ [name]⟩ name vs w
        (by rw [hstart]; exact hw)

/-- Every status write of one `shutdown_step` is a manager write step. -/
theorem shutdown_step_writes (s : ManagerState) (name : String)
    (vstop : Except ProxyError Unit) :
    ∀ w ∈ (shutdown_step s name vstop).2, managerWriteStep w.1 w.2 = true := by
  intro w hw
  unfold shutdown_step at hw
  rcases hget : s.registry.get name with e | info
  · rw [hget] at hw
    simp at hw
  · rw [hget] at hw
    by_cases hloc : info.endpoint_type = EndpointType.Local
    · simp only [hloc, if_pos] at hw
      rcases hres : stop_endpoint s name vstop with ⟨res1, s1, w1⟩
      rw [hres] at hw
      exact stop_endpoint_writes s name vstop w (by rw [hres]; exact hw)
    · simp [hloc] at hw

/-- Every status write of the `shutdown` fold is a manager write step,
whatever the accumulator already holds. -/
theorem shutdown_foldl_writes (vstops : String → Except ProxyError Unit)
    (names : List String) :
    ∀ (s : ManagerState) (acc : List StatusWrite),
      (∀ w ∈ acc, managerWriteStep w.1 w.2 = true) →
      ∀ w ∈ (names.foldl
          (fun acc2 name =>
            let (s', w2) := shutdown_step acc2.1 name (vstops name)
            (s', acc2.2 ++ w2))
          (s, acc)).2,
        managerWriteStep w.1 w.2 = true := by
  induction names with
  | nil =>
    intro s acc hacc w hw
    exact hacc w (by simpa using hw)
  | cons n ns ih =>
    intro s acc hacc w hw
    rcases hstep : shutdown_step s n (vstops n) with ⟨s1, w1⟩
    refine ih s1 (acc ++ w1) ?_ w ?_
    · intro w2 hw2
      rcases List.mem_append.mp hw2 with h | h
      · exact hacc w2 h
      · exact shutdown_step_writes s n (vstops n) w2 (by rw [hstep]; exact h)
    · simpa [List.foldl, hstep] using hw

/-- Every status write of `shutdown` is a manager write step. -/
theorem shutdown_writes (s : ManagerState)
    (vstops : String → Except ProxyError Unit) :
    ∀ w ∈ (shutdown s vstops).2, managerWriteStep w.1 w.2 = true := by
  intro w hw
  exact shutdown_foldl_writes vstops s.endpoints s [] (by simp) w hw

/-- Every status write of any single manager call is a manager write
step. -/
theorem runOp_writes (s : ManagerState) (op : ManagerOp) :
    ∀ w ∈ (runOp s op).2, managerWriteStep w.1 w.2 = true := by
  cases op with
  | init name t auto_start vs =>
    intro w hw
    rcases hop : init_endpoint s name t auto_start vs with ⟨res, s', ws⟩
    exact init_endpoint_writes s name t auto_start vs w
      (by rw [hop]; simpa [runOp, hop] using hw)
  | start name vs =>
    intro w hw
    rcases hop : start_endpoint s name vs with ⟨res, s', ws⟩
    exact start_endpoint_writes s name vs w
      (by rw [hop]; simpa [runOp, hop] using hw)
  | stop name vstop =>
    intro w hw
    rcases hop : stop_endpoint s name vstop with ⟨res, s', ws⟩
    exact stop_endpoint_writes s name vstop w
      (by rw [hop]; simpa [runOp, hop] using hw)
  | restart name vstop vstart =>
    intro w hw
    rcases hop : restart_endpoint s name vstop vstart with ⟨res, s', ws⟩
    exact restart_endpoint_writes s name vstop vstart w
      (by rw [hop]; simpa [runOp, hop] using hw)
  | shutdownAll vstops =>
    intro w hw
    exact shutdown_writes s vstops w (by simpa [runOp] using hw)

/-- C6 counterexample: starting a registered endpoint whose variant start
fails and then stopping it produces the write sequence `Stopped →
Starting → Failed → Stopping → Stopped`, whose third write
`Failed → Stopping` is NOT a documented transition (the documented paths
are the cycle `Stopped → Starting → Running → Stopping → Stopped` plus
active-state `→ Failed`). -/
theorem C6_counterexample :
    (runOps ManagerState.new
        [.init "a" .Local false (.ok ()),
         .start "a" (.error (.ServerStartFailed "a: boom")),
         .stop "a" (.ok ())]).2 =
      [(.Stopped, .Starting), (.Starting, .Failed), (.Failed, .Stopping),
       (.Stopping, .Stopped)] ∧
    documentedTransition .Failed .Stopping = false := by
  exact ⟨by decide, by decide⟩

/-- C6 (amended): from any state, every registry status write performed
by any sequence of manager operations is one of: a non-`Running` status
to `Starting` (start), `Starting` to `Running`/`Failed` (start outcome),
a non-`Stopped` status to `Stopping` (stop), or `Stopping` to
`Stopped`/`Failed` (stop outcome) — the documented paths plus the
recovery writes out of `Failed` (and out of `Starting`/`Stopping`) into a
new start or stop; in particular no write ever takes a status directly
from `Stopped` to `Running`. -/
theorem C6_status_writes (s : ManagerState) (ops : List ManagerOp) :
    ∀ w ∈ (runOps s ops).2,
      managerWriteStep w.1 w.2 = true ∧
      ¬(w.1 = .Stopped ∧ w.2 = .Running) := by
  induction ops generalizing s with
  | nil =>
    intro w hw
    simp [runOps] at hw
  | cons op ops ih =>
    intro w hw
    rcases hop : runOp s op with ⟨s', ws⟩
    rw [runOps, hop] at hw
    simp only at hw
    have hstep : managerWriteStep w.1 w.2 = true := by
      rcases List.mem_append.mp hw with h | h
      · exact runOp_writes s op w (by rw [hop]; exact h)
      · exact ((ih s' w h).1)
    refine ⟨hstep, ?_⟩
    rintro ⟨h1, h2⟩
    rw [h1, h2] at hstep
    simp [managerWriteStep] at hstep

/-- C6 witness: the `Stopped → Starting` write of an auto-started
registration is a manager write step and is not a direct
`Stopped → Running` write. -/
theorem C6_status_writes_witness :
    managerWriteStep EndpointStatus.Stopped EndpointStatus.Starting = true ∧
    ¬(EndpointStatus.Stopped = EndpointStatus.Stopped ∧
      EndpointStatus.Starting = EndpointStatus.Running) :=
  C6_status_writes ManagerState.new [.init "a" .Local true (.ok ())]
    (.Stopped, .Starting) (by decide)

end RustedTools
